import Mathlib

/-!
# Verification development for the reliable UDP layer declared in net.h

The header net.h declares the sequence-number constants, the socket-address comparison
macros (one pair per build: the default build and the HAS_IPV6 build), the event-type
enumeration and the per-connection record.  The definitions below embed those declarations;
the operations that the header only declares (the send and receive paths) are described by
the specification, and the pieces of them used here are marked as modelled from it.
-/

namespace Net

/-! ## Sequence-number constants (net.h lines 59 to 63) -/

/-- Source: the define of NET_SEQNO_SIZE, the configured sequence-number width in bytes. -/
def NET_SEQNO_SIZE : Nat := 2

/-- Source: the define of NET_SEQNO_MAX, written in C as ((1 << (NET_SEQNO_SIZE) * 8) - 3).
In C the product binds tighter than the shift, so the shift amount is NET_SEQNO_SIZE * 8;
the value fits a 32-bit int, so no reduction modulo 2^32 takes place. -/
def NET_SEQNO_MAX : Nat := (1 <<< (NET_SEQNO_SIZE * 8)) - 3

/-- Source: the define of NET_PING_SEQNO. -/
def NET_PING_SEQNO : Nat := NET_SEQNO_MAX + 1

/-- Source: the define of NET_NAK_SEQNO. -/
def NET_NAK_SEQNO : Nat := NET_SEQNO_MAX + 2

/-- The value that the documentation comment above NET_SEQNO_MAX announces: 256 - 3. -/
def NET_SEQNO_MAX_documented : Nat := 256 - 3

/-! ## Socket addresses and the comparison macros (net.h lines 31 to 57)

The macros receive pointers to struct sockaddr and read them through casts to
struct sockaddr_in and struct sockaddr_in6.  A socket address is embedded as the record of
the fields those casts read.  AF_INET and AF_INET6 come from the system headers, not from
this repository, so every macro takes them as parameters.  The C operators == and && and ||
yield the int 1 or 0, which is what the embedded macros return. -/

/-- Source: struct in_addr of the system headers, the IPv4 address read as sin_addr.s_addr. -/
structure in_addr where
  s_addr : Nat
deriving DecidableEq

/-- Source: the fields of a socket address that the macros of net.h read: sa_family, the
sockaddr_in view (sin_port, sin_addr) and the sockaddr_in6 view (sin6_port, sin6_addr, the
latter as its bytes). -/
structure sockaddr where
  sa_family : Nat
  sin_port : Nat
  sin_addr : in_addr
  sin6_port : Nat
  sin6_addr : List Nat
deriving DecidableEq

/-- Source: sizeof of the sin6_addr member, the 16 bytes of an IPv6 address. -/
def sizeof_sin6_addr : Nat := 16

/-- Source: memcmp of the C library on byte sequences: 0 when the first n bytes agree,
otherwise the difference of the first pair of bytes that differ. -/
def memcmp : List Nat → List Nat → Nat → Int
  | a :: as, b :: bs, n + 1 => if a = b then memcmp as bs n else (a : Int) - (b : Int)
  | _, _, _ => 0

/-- Source: SOCK_ADDR_EQ_ADDR of the default build (net.h line 49). -/
def SOCK_ADDR_EQ_ADDR (AF_INET : Nat) (sa sb : sockaddr) : Nat :=
  if sa.sa_family = AF_INET ∧ sb.sa_family = AF_INET
      ∧ sa.sin_addr.s_addr = sb.sin_addr.s_addr then 1 else 0

/-- Source: SOCK_ADDR_EQ_PORT of the default build (net.h line 56). -/
def SOCK_ADDR_EQ_PORT (AF_INET : Nat) (sa sb : sockaddr) : Nat :=
  if sa.sa_family = AF_INET ∧ sb.sa_family = AF_INET
      ∧ sa.sin_port = sb.sin_port then 1 else 0

/-- The conjunction SOCK_ADDR_EQ_ADDR(sa, sb) && SOCK_ADDR_EQ_PORT(sa, sb) of the two macros of
the default build, the equality by which a connection record is looked up; the C operator &&
yields 1 when both operands are non-zero and 0 otherwise. -/
def SOCK_ADDR_EQ (AF_INET : Nat) (sa sb : sockaddr) : Nat :=
  if SOCK_ADDR_EQ_ADDR AF_INET sa sb ≠ 0 ∧ SOCK_ADDR_EQ_PORT AF_INET sa sb ≠ 0 then 1 else 0

namespace HAS_IPV6

/-- Source: SOCK_ADDR_EQ_ADDR of the HAS_IPV6 build (net.h lines 32 to 36).  Both arguments
of its memcmp are read from sa, as in the source text.  The source text carries one closing
parenthesis more than it opens; the embedding takes the disjunction of the two
parenthesised conjunctions, which is the grouping the text spells out. -/
def SOCK_ADDR_EQ_ADDR (AF_INET AF_INET6 : Nat) (sa sb : sockaddr) : Nat :=
  if (sa.sa_family = AF_INET ∧ sb.sa_family = AF_INET
        ∧ sa.sin_addr.s_addr = sb.sin_addr.s_addr)
      ∨ (sa.sa_family = AF_INET6 ∧ sb.sa_family = AF_INET6
        ∧ memcmp sa.sin6_addr sa.sin6_addr sizeof_sin6_addr = 0) then 1 else 0

/-- Source: SOCK_ADDR_EQ_PORT of the HAS_IPV6 build (net.h lines 37 to 41). -/
def SOCK_ADDR_EQ_PORT (AF_INET AF_INET6 : Nat) (sa sb : sockaddr) : Nat :=
  if (sa.sa_family = AF_INET ∧ sb.sa_family = AF_INET ∧ sa.sin_port = sb.sin_port)
      ∨ (sa.sa_family = AF_INET6 ∧ sb.sa_family = AF_INET6
        ∧ sa.sin6_port = sb.sin6_port) then 1 else 0

end HAS_IPV6

/-! ## Event types (net.h lines 78 to 83) -/

/-- Source: enumerator NET_EVENT_TYPE_NONE, the first enumerator, hence 0. -/
def NET_EVENT_TYPE_NONE : Nat := 0

/-- Source: enumerator NET_EVENT_TYPE_RECEIVE = 1 << 0. -/
def NET_EVENT_TYPE_RECEIVE : Nat := 1 <<< 0

/-- Source: enumerator NET_EVENT_TYPE_CONNECT = 1 << 1. -/
def NET_EVENT_TYPE_CONNECT : Nat := 1 <<< 1

/-- Source: enumerator NET_EVENT_TYPE_DISCONNECT = 1 << 2. -/
def NET_EVENT_TYPE_DISCONNECT : Nat := 1 <<< 2

/-- The three event flags that may be combined in the type field of a net_event. -/
def eventFlags : List Nat :=
  [NET_EVENT_TYPE_RECEIVE, NET_EVENT_TYPE_CONNECT, NET_EVENT_TYPE_DISCONNECT]

/-- The bitwise OR of a collection of event flags, as built with the C operator |. -/
def orFlags : List Nat → Nat
  | [] => NET_EVENT_TYPE_NONE
  | f :: fs => f ||| orFlags fs

/-- The C test (t & f) != 0 for a flag f in an event type t. -/
def hasFlag (t f : Nat) : Bool := (t &&& f) != 0

/-! ## The connection record (net.h lines 96 to 106) -/

/-- Source: struct conn.  The three arrays are dimensioned by NET_SEQNO_MAX; a pointer is
embedded as an optional byte sequence. -/
structure conn where
  address : sockaddr
  sentLengths : Fin NET_SEQNO_MAX → Int
  sentBuffers : Fin NET_SEQNO_MAX → Option (List Nat)
  missing : Fin NET_SEQNO_MAX → Nat
  lastSent : Nat
  lastReceived : Nat
  lastSendTime : Int
  lastReceiveTime : Int
  data : Option (List Nat)

/-- Source: the documented defaults of struct conn: missing is initialised with zeros,
lastSent and lastReceived default to 0. -/
def conn_default (address : sockaddr) : conn where
  address := address
  sentLengths := fun _ => 0
  sentBuffers := fun _ => none
  missing := fun _ => 0
  lastSent := 0
  lastReceived := 0
  lastSendTime := 0
  lastReceiveTime := 0
  data := none

/-- Source: the documented indexing of the per-connection arrays (net.h line 100): the
packet with sequence number seqno is tracked at index seqno - 1.  Sequence numbers are held
in unsigned int (net.h lines 101 and 102), 32 bits wide, so the subtraction is taken modulo
2^32: at seqno = 0 it wraps to 4294967295. -/
def slotIndex (seqno : Nat) : Nat := (seqno + 4294967296 - 1) % 4294967296

/-- An index is in bounds for an array of NET_SEQNO_MAX entries. -/
def slotInBounds (i : Nat) : Bool := decide (i < NET_SEQNO_MAX)

/-! ## Operations described by the specification

net.h only declares net_send and net_recv; their bodies are not part of the header.
The sequence arithmetic they use is taken from the specification. -/

/-- Modelled from the spec: SequenceSpace.next of section 4.1, used by the body of net_send
which is missing from the sources: next(seq) returns (seq + 1) mod MAX. -/
def next (seq : Nat) : Nat := (seq + 1) % NET_SEQNO_MAX

/-- Modelled from the spec: SequenceSpace.isReserved of section 4.1, missing from the
sources: true if seq is PING or NAK. -/
def isReserved (seq : Nat) : Bool := seq == NET_PING_SEQNO || seq == NET_NAK_SEQNO

/-- Counting loop of distanceForward: the number of increments added to n until a reaches b,
giving up once the fuel is spent. -/
def distanceForwardAux : Nat → Nat → Nat → Nat → Nat
  | 0, _, _, n => n
  | fuel + 1, a, b, n => if a = b then n else distanceForwardAux fuel (next a) b (n + 1)

/-- Modelled from the spec: SequenceSpace.distanceForward of section 4.1, used by the body of
net_recv which is missing from the sources: the number of increments from a to reach b,
accounting for wraparound.  A cycle of next has NET_SEQNO_MAX elements, so that much fuel
reaches every b in range. -/
def distanceForward (a b : Nat) : Nat := distanceForwardAux NET_SEQNO_MAX a b 0

/-- Modelled from the spec: the value of lastSent after n reliable sends of the send path of
section 4.3 (the body of net_send is missing from the sources): each send assigns
seq = next(lastSentSeq) and stores it as lastSentSeq, starting from the default 0. -/
def lastSentAfter : Nat → Nat
  | 0 => 0
  | n + 1 => next (lastSentAfter n)

/-- A step that advances one of the two counters of a connection. -/
inductive SeqStep where
  | sent
  | received
deriving DecidableEq

/-- Modelled from the spec: the counter updates of the send path (lastSentSeq becomes
next(lastSentSeq)) and of the in-order receive path (lastReceivedSeq becomes its immediate
successor); the bodies of net_send and net_recv are missing from the sources. -/
def conn.advance (c : conn) : SeqStep → conn
  | SeqStep.sent => { c with lastSent := next c.lastSent }
  | SeqStep.received => { c with lastReceived := next c.lastReceived }

/-- The connection after a sequence of counter steps. -/
def conn.advanceAll (c : conn) (steps : List SeqStep) : conn := steps.foldl conn.advance c

/-- Modelled from the spec: the wire framing of section 6, written by the body of net_send
which is missing from the sources: one header byte, the sequence number or sentinel
truncated to 8 bits. -/
def encodeHeader (v : Nat) : Nat := v % 256

/-- Modelled from the spec: the first step of the receive path of section 4.4 (the body of
net_recv is missing from the sources): the header byte is read as the sequence value. -/
def decodeHeader (b : Nat) : Nat := b

/-! ## Concrete socket addresses used to evaluate the macros

The values 2 and 10 are those of AF_INET and AF_INET6 on Linux. -/

/-- An AF_INET6 socket address holding the IPv6 loopback address, port 8080. -/
def addr6_loopback : sockaddr :=
  ⟨10, 8080, ⟨0⟩, 8080, [0, 0, 0, 0, 0, 0, 0, 0, 0, 0, 0, 0, 0, 0, 0, 1]⟩

/-- An AF_INET6 socket address holding the unspecified IPv6 address, port 8080. -/
def addr6_any : sockaddr :=
  ⟨10, 8080, ⟨0⟩, 8080, [0, 0, 0, 0, 0, 0, 0, 0, 0, 0, 0, 0, 0, 0, 0, 0]⟩

/-- An AF_INET socket address: 127.0.0.1 in network byte order, port 8080. -/
def addr4_a : sockaddr := ⟨2, 8080, ⟨16777343⟩, 0, []⟩

/-- The same logical AF_INET address as addr4_a, held in a record whose unread bytes differ. -/
def addr4_b : sockaddr := ⟨2, 8080, ⟨16777343⟩, 7, [1]⟩

/-- A third record of the same logical AF_INET address. -/
def addr4_c : sockaddr := ⟨2, 8080, ⟨16777343⟩, 9, [2, 3]⟩

/-! ## Shared facts about the sequence space -/

theorem NET_SEQNO_MAX_eq : NET_SEQNO_MAX = 65533 := by decide

theorem NET_PING_SEQNO_eq : NET_PING_SEQNO = 65534 := by decide

theorem NET_NAK_SEQNO_eq : NET_NAK_SEQNO = 65535 := by decide

theorem next_eq (seq : Nat) : next seq = (seq + 1) % 65533 := by
  unfold next
  rw [NET_SEQNO_MAX_eq]

theorem next_lt (seq : Nat) : next seq < NET_SEQNO_MAX := by
  rw [next_eq, NET_SEQNO_MAX_eq]
  omega

theorem lastSentAfter_eq (n : Nat) : lastSentAfter n = n % 65533 := by
  induction n with
  | zero => rfl
  | succ k ih =>
    show next (lastSentAfter k) = (k + 1) % 65533
    rw [next_eq, ih]
    omega

theorem advance_lastSent_lt (c : conn) (st : SeqStep)
    (h : c.lastSent < NET_SEQNO_MAX) : (c.advance st).lastSent < NET_SEQNO_MAX := by
  cases st
  · exact next_lt c.lastSent
  · exact h

theorem advance_lastReceived_lt (c : conn) (st : SeqStep)
    (h : c.lastReceived < NET_SEQNO_MAX) : (c.advance st).lastReceived < NET_SEQNO_MAX := by
  cases st
  · exact h
  · exact next_lt c.lastReceived

theorem advanceAll_lt (steps : List SeqStep) (c : conn)
    (hs : c.lastSent < NET_SEQNO_MAX) (hr : c.lastReceived < NET_SEQNO_MAX) :
    (c.advanceAll steps).lastSent < NET_SEQNO_MAX
      ∧ (c.advanceAll steps).lastReceived < NET_SEQNO_MAX := by
  induction steps generalizing c with
  | nil => exact ⟨hs, hr⟩
  | cons st rest ih =>
    exact ih (c.advance st) (advance_lastSent_lt c st hs) (advance_lastReceived_lt c st hr)

/-- The counting loop adds to n the forward distance, whenever the fuel covers it. -/
theorem distanceForwardAux_eq (fuel : Nat) :
    ∀ a b n : Nat, a < 65533 → b < 65533 → (b + 65533 - a) % 65533 ≤ fuel →
      distanceForwardAux fuel a b n = n + (b + 65533 - a) % 65533 := by
  induction fuel with
  | zero =>
    intro a b n _ _ hk
    simp only [distanceForwardAux]
    omega
  | succ f ih =>
    intro a b n ha hb hk
    simp only [distanceForwardAux]
    by_cases hab : a = b
    · rw [if_pos hab]
      omega
    · rw [if_neg hab, next_eq, ih ((a + 1) % 65533) b (n + 1) (by omega) hb (by omega)]
      omega

/-- Closed form of the forward distance on sequence numbers in range. -/
theorem distanceForward_eq (a b : Nat) (ha : a < NET_SEQNO_MAX) (hb : b < NET_SEQNO_MAX) :
    distanceForward a b = (b + NET_SEQNO_MAX - a) % NET_SEQNO_MAX := by
  rw [NET_SEQNO_MAX_eq] at ha hb
  unfold distanceForward
  rw [NET_SEQNO_MAX_eq, distanceForwardAux_eq 65533 a b 0 ha hb (by omega)]
  omega

/-! ## The claims on the sequence space -/

/-- C1: the sequence-space constants follow the definition MAX = 2^(8 * NET_SEQNO_SIZE) - 3,
PING = MAX + 1 and NAK = MAX + 2; with NET_SEQNO_SIZE = 2 they are 65533, 65534 and 65535;
PING and NAK are distinct, neither lies in the data range from 0 up to MAX excluded, and
both fit NET_SEQNO_SIZE bytes. -/
theorem C1_sequence_constants :
    NET_SEQNO_SIZE = 2
      ∧ NET_SEQNO_MAX = 2 ^ (8 * NET_SEQNO_SIZE) - 3
      ∧ NET_PING_SEQNO = NET_SEQNO_MAX + 1
      ∧ NET_NAK_SEQNO = NET_SEQNO_MAX + 2
      ∧ NET_SEQNO_MAX = 65533 ∧ NET_PING_SEQNO = 65534 ∧ NET_NAK_SEQNO = 65535
      ∧ NET_PING_SEQNO ≠ NET_NAK_SEQNO
      ∧ ¬ NET_PING_SEQNO < NET_SEQNO_MAX ∧ ¬ NET_NAK_SEQNO < NET_SEQNO_MAX
      ∧ NET_PING_SEQNO ≤ 2 ^ (8 * NET_SEQNO_SIZE) - 1
      ∧ NET_NAK_SEQNO ≤ 2 ^ (8 * NET_SEQNO_SIZE) - 1 := by
  decide

/-- C2: for every seq (in particular every seq below NET_SEQNO_MAX), next seq is
(seq + 1) mod NET_SEQNO_MAX, lies below NET_SEQNO_MAX and is neither sentinel; and a
connection that starts from the default counters and advances them only by next never holds
PING or NAK in lastSent or lastReceived, whatever the number of steps. -/
theorem C2_next_never_reserved (seq : Nat) (address : sockaddr) (steps : List SeqStep) :
    (next seq = (seq + 1) % NET_SEQNO_MAX ∧ next seq < NET_SEQNO_MAX
        ∧ next seq ≠ NET_PING_SEQNO ∧ next seq ≠ NET_NAK_SEQNO
        ∧ isReserved (next seq) = false)
      ∧ ((conn_default address).advanceAll steps).lastSent < NET_SEQNO_MAX
      ∧ ((conn_default address).advanceAll steps).lastSent ≠ NET_PING_SEQNO
      ∧ ((conn_default address).advanceAll steps).lastSent ≠ NET_NAK_SEQNO
      ∧ ((conn_default address).advanceAll steps).lastReceived < NET_SEQNO_MAX
      ∧ ((conn_default address).advanceAll steps).lastReceived ≠ NET_PING_SEQNO
      ∧ ((conn_default address).advanceAll steps).lastReceived ≠ NET_NAK_SEQNO := by
  have hn := next_lt seq
  have hd : (conn_default address).lastSent < NET_SEQNO_MAX
      ∧ (conn_default address).lastReceived < NET_SEQNO_MAX := by
    constructor <;> (show 0 < NET_SEQNO_MAX; decide)
  have hr := advanceAll_lt steps (conn_default address) hd.1 hd.2
  have hp : NET_PING_SEQNO = NET_SEQNO_MAX + 1 := rfl
  have hk : NET_NAK_SEQNO = NET_SEQNO_MAX + 2 := rfl
  refine ⟨⟨rfl, hn, by omega, by omega, ?_⟩, hr.1, by omega, by omega, hr.2,
    by omega, by omega⟩
  simp only [isReserved, Bool.or_eq_false_iff, beq_eq_false_iff_ne, ne_eq]
  exact ⟨by omega, by omega⟩

/-- C3: for every sequence number s below NET_SEQNO_MAX, distanceForward s s = 0 and
distanceForward s (next s) = 1; this covers the wraparound case s = NET_SEQNO_MAX - 1,
where next s = 0 has a smaller raw value than s. -/
theorem C3_distanceForward_consistent (s : Nat) (h : s < NET_SEQNO_MAX) :
    distanceForward s s = 0 ∧ distanceForward s (next s) = 1
      ∧ next (NET_SEQNO_MAX - 1) = 0 ∧ next (NET_SEQNO_MAX - 1) < NET_SEQNO_MAX - 1
      ∧ distanceForward (NET_SEQNO_MAX - 1) (next (NET_SEQNO_MAX - 1)) = 1 := by
  have hl : NET_SEQNO_MAX - 1 < NET_SEQNO_MAX := by decide
  rw [distanceForward_eq s s h h, distanceForward_eq s (next s) h (next_lt s),
    distanceForward_eq _ _ hl (next_lt _)]
  simp only [next_eq, NET_SEQNO_MAX_eq] at *
  refine ⟨by omega, by omega, trivial, by omega, trivial⟩

/-- C3 at the wraparound value s = 65532 = NET_SEQNO_MAX - 1. -/
theorem C3_distanceForward_consistent_witness :
    65532 < NET_SEQNO_MAX
      ∧ (distanceForward 65532 65532 = 0 ∧ distanceForward 65532 (next 65532) = 1
        ∧ next (NET_SEQNO_MAX - 1) = 0 ∧ next (NET_SEQNO_MAX - 1) < NET_SEQNO_MAX - 1
        ∧ distanceForward (NET_SEQNO_MAX - 1) (next (NET_SEQNO_MAX - 1)) = 1) :=
  ⟨by decide, C3_distanceForward_consistent 65532 (by decide)⟩

/-! ## Socket-address comparison -/

theorem SOCK_ADDR_EQ_ADDR_ne_zero (AF_INET : Nat) (sa sb : sockaddr) :
    SOCK_ADDR_EQ_ADDR AF_INET sa sb ≠ 0 ↔
      sa.sa_family = AF_INET ∧ sb.sa_family = AF_INET
        ∧ sa.sin_addr.s_addr = sb.sin_addr.s_addr := by
  unfold SOCK_ADDR_EQ_ADDR
  split <;> simp_all

theorem SOCK_ADDR_EQ_PORT_ne_zero (AF_INET : Nat) (sa sb : sockaddr) :
    SOCK_ADDR_EQ_PORT AF_INET sa sb ≠ 0 ↔
      sa.sa_family = AF_INET ∧ sb.sa_family = AF_INET ∧ sa.sin_port = sb.sin_port := by
  unfold SOCK_ADDR_EQ_PORT
  split <;> simp_all

theorem SOCK_ADDR_EQ_ne_zero (AF_INET : Nat) (sa sb : sockaddr) :
    SOCK_ADDR_EQ AF_INET sa sb ≠ 0 ↔
      sa.sa_family = AF_INET ∧ sb.sa_family = AF_INET
        ∧ sa.sin_addr.s_addr = sb.sin_addr.s_addr ∧ sa.sin_port = sb.sin_port := by
  have h1 := SOCK_ADDR_EQ_ADDR_ne_zero AF_INET sa sb
  have h2 := SOCK_ADDR_EQ_PORT_ne_zero AF_INET sa sb
  unfold SOCK_ADDR_EQ
  split
  · rename_i h
    have a := h1.1 h.1
    have b := h2.1 h.2
    exact ⟨fun _ => ⟨a.1, a.2.1, a.2.2, b.2.2⟩, fun _ => one_ne_zero⟩
  · rename_i h
    constructor
    · intro h0
      exact absurd rfl h0
    · rintro ⟨fa, fb, ea, ep⟩
      exact absurd ⟨h1.2 ⟨fa, fb, ea⟩, h2.2 ⟨fa, fb, ep⟩⟩ h

theorem memcmp_self (n : Nat) : ∀ x : List Nat, memcmp x x n = 0 := by
  induction n with
  | zero => intro x; cases x <;> rfl
  | succ k ih =>
    intro x
    cases x with
    | nil => rfl
    | cons a as => simp [memcmp, ih as]

/-- In the HAS_IPV6 build the address comparison accepts every pair of AF_INET6 addresses,
because its memcmp compares sa with itself. -/
theorem HAS_IPV6.SOCK_ADDR_EQ_ADDR_inet6 (AF_INET AF_INET6 : Nat) (sa sb : sockaddr)
    (ha : sa.sa_family = AF_INET6) (hb : sb.sa_family = AF_INET6) :
    HAS_IPV6.SOCK_ADDR_EQ_ADDR AF_INET AF_INET6 sa sb = 1 := by
  unfold HAS_IPV6.SOCK_ADDR_EQ_ADDR
  rw [if_pos (Or.inr ⟨ha, hb, memcmp_self _ _⟩)]

/-- C4 (as stated, refuted): in the default build an AF_INET6 address compared with itself
gives zero, although its family and network address equal themselves; so the comparison is
not non-zero for every address compared with itself. -/
theorem C4_counterexample :
    addr6_loopback.sa_family = 10
      ∧ SOCK_ADDR_EQ_ADDR 2 addr6_loopback addr6_loopback = 0
      ∧ ¬ (∀ sa : sockaddr, SOCK_ADDR_EQ_ADDR 2 sa sa ≠ 0) := by
  refine ⟨rfl, by decide, fun h => h addr6_loopback (by decide)⟩

/-- C4 (amended): in the default build SOCK_ADDR_EQ_ADDR sa sb is non-zero if and only if
both families are AF_INET and the two sin_addr.s_addr are equal, and it is zero exactly
otherwise; compared with itself an address gives non-zero exactly when its family is
AF_INET. -/
theorem C4_eq_addr_default_build (AF_INET : Nat) (sa sb : sockaddr) :
    (SOCK_ADDR_EQ_ADDR AF_INET sa sb ≠ 0 ↔
        sa.sa_family = AF_INET ∧ sb.sa_family = AF_INET
          ∧ sa.sin_addr.s_addr = sb.sin_addr.s_addr)
      ∧ (SOCK_ADDR_EQ_ADDR AF_INET sa sb = 0 ↔
        ¬ (sa.sa_family = AF_INET ∧ sb.sa_family = AF_INET
          ∧ sa.sin_addr.s_addr = sb.sin_addr.s_addr))
      ∧ (SOCK_ADDR_EQ_ADDR AF_INET sa sa ≠ 0 ↔ sa.sa_family = AF_INET) := by
  refine ⟨SOCK_ADDR_EQ_ADDR_ne_zero AF_INET sa sb, ?_, ?_⟩
  · rw [← SOCK_ADDR_EQ_ADDR_ne_zero AF_INET sa sb, not_not]
  · rw [SOCK_ADDR_EQ_ADDR_ne_zero]
    simp

/-- C5: on AF_INET addresses the lookup equality SOCK_ADDR_EQ_ADDR && SOCK_ADDR_EQ_PORT is
non-zero if and only if sin_addr.s_addr and sin_port are both equal; it is reflexive,
symmetric and transitive there, and two keys matched by one address carry the same
family, IP and port. -/
theorem C5_lookup_equality (AF_INET : Nat) (sa sb sc : sockaddr)
    (ha : sa.sa_family = AF_INET) (hb : sb.sa_family = AF_INET)
    (hc : sc.sa_family = AF_INET) :
    (SOCK_ADDR_EQ AF_INET sa sb ≠ 0 ↔
        sa.sin_addr.s_addr = sb.sin_addr.s_addr ∧ sa.sin_port = sb.sin_port)
      ∧ SOCK_ADDR_EQ AF_INET sa sa ≠ 0
      ∧ (SOCK_ADDR_EQ AF_INET sa sb ≠ 0 → SOCK_ADDR_EQ AF_INET sb sa ≠ 0)
      ∧ (SOCK_ADDR_EQ AF_INET sa sb ≠ 0 → SOCK_ADDR_EQ AF_INET sb sc ≠ 0 →
          SOCK_ADDR_EQ AF_INET sa sc ≠ 0)
      ∧ (SOCK_ADDR_EQ AF_INET sa sb ≠ 0 → SOCK_ADDR_EQ AF_INET sa sc ≠ 0 →
          sb.sa_family = sc.sa_family ∧ sb.sin_addr.s_addr = sc.sin_addr.s_addr
            ∧ sb.sin_port = sc.sin_port ∧ SOCK_ADDR_EQ AF_INET sb sc ≠ 0) := by
  have key : ∀ x y : sockaddr, x.sa_family = AF_INET → y.sa_family = AF_INET →
      (SOCK_ADDR_EQ AF_INET x y ≠ 0 ↔
        x.sin_addr.s_addr = y.sin_addr.s_addr ∧ x.sin_port = y.sin_port) := by
    intro x y hx hy
    rw [SOCK_ADDR_EQ_ne_zero]
    exact ⟨fun h => h.2.2, fun h => ⟨hx, hy, h⟩⟩
  rw [key sa sb ha hb, key sa sa ha ha, key sb sa hb ha, key sb sc hb hc, key sa sc ha hc,
    hb, hc]
  refine ⟨Iff.rfl, ⟨rfl, rfl⟩, ?_, ?_, ?_⟩
  · rintro ⟨h1, h2⟩
    exact ⟨h1.symm, h2.symm⟩
  · rintro ⟨h1, h2⟩ ⟨h3, h4⟩
    exact ⟨h1.trans h3, h2.trans h4⟩
  · rintro ⟨h1, h2⟩ ⟨h3, h4⟩
    exact ⟨rfl, h1.symm.trans h3, h2.symm.trans h4, h1.symm.trans h3, h2.symm.trans h4⟩

/-- C5 at three records of the AF_INET address 127.0.0.1, port 8080. -/
theorem C5_lookup_equality_witness :
    addr4_a.sa_family = 2 ∧ addr4_b.sa_family = 2 ∧ addr4_c.sa_family = 2
      ∧ ((SOCK_ADDR_EQ 2 addr4_a addr4_b ≠ 0 ↔
          addr4_a.sin_addr.s_addr = addr4_b.sin_addr.s_addr
            ∧ addr4_a.sin_port = addr4_b.sin_port)
        ∧ SOCK_ADDR_EQ 2 addr4_a addr4_a ≠ 0
        ∧ (SOCK_ADDR_EQ 2 addr4_a addr4_b ≠ 0 → SOCK_ADDR_EQ 2 addr4_b addr4_a ≠ 0)
        ∧ (SOCK_ADDR_EQ 2 addr4_a addr4_b ≠ 0 → SOCK_ADDR_EQ 2 addr4_b addr4_c ≠ 0 →
            SOCK_ADDR_EQ 2 addr4_a addr4_c ≠ 0)
        ∧ (SOCK_ADDR_EQ 2 addr4_a addr4_b ≠ 0 → SOCK_ADDR_EQ 2 addr4_a addr4_c ≠ 0 →
            addr4_b.sa_family = addr4_c.sa_family
              ∧ addr4_b.sin_addr.s_addr = addr4_c.sin_addr.s_addr
              ∧ addr4_b.sin_port = addr4_c.sin_port
              ∧ SOCK_ADDR_EQ 2 addr4_b addr4_c ≠ 0)) :=
  ⟨rfl, rfl, rfl, C5_lookup_equality 2 addr4_a addr4_b addr4_c rfl rfl rfl⟩

/-- C9 (the code at the failing input): in the HAS_IPV6 build two AF_INET6 addresses whose
sin6_addr bytes differ compare as non-zero, because the memcmp of the macro reads both of
its operands from sa. -/
theorem C9_ipv6_compare_ignores_sb :
    addr6_any.sa_family = 10 ∧ addr6_loopback.sa_family = 10
      ∧ addr6_any.sin6_addr ≠ addr6_loopback.sin6_addr
      ∧ HAS_IPV6.SOCK_ADDR_EQ_ADDR 2 10 addr6_any addr6_loopback = 1
      ∧ HAS_IPV6.SOCK_ADDR_EQ_ADDR 2 10 addr6_loopback addr6_any = 1 := by
  decide

/-! ## Wire header and documented size of the sequence space -/

/-- C6 (the code at the failing input): with NET_SEQNO_MAX = 65533 the one-byte header is
not decodable: the data sequence numbers 0 and 256 share the header byte 0, so 256 decodes
to 0, and the data sequence numbers 254 and 255 share their header bytes with PING and
NAK. -/
theorem C6_header_byte_collides :
    256 < NET_SEQNO_MAX ∧ encodeHeader 256 = encodeHeader 0
      ∧ decodeHeader (encodeHeader 256) ≠ 256
      ∧ 254 < NET_SEQNO_MAX ∧ encodeHeader 254 = encodeHeader NET_PING_SEQNO
      ∧ 255 < NET_SEQNO_MAX ∧ encodeHeader 255 = encodeHeader NET_NAK_SEQNO
      ∧ decodeHeader (encodeHeader NET_PING_SEQNO) ≠ NET_PING_SEQNO
      ∧ decodeHeader (encodeHeader NET_NAK_SEQNO) ≠ NET_NAK_SEQNO := by
  decide

/-- C7 (the code against its documentation): NET_SEQNO_MAX evaluates to 65533, not to the
documented 256 - 3 = 253; PING and NAK are 65534 and 65535, not 254 and 255; and the
arrays of a connection, dimensioned by NET_SEQNO_MAX, have 65533 slots, not 253. -/
theorem C7_seqno_max_differs_from_documentation :
    NET_SEQNO_MAX_documented = 253
      ∧ NET_SEQNO_MAX = 65533 ∧ NET_SEQNO_MAX ≠ NET_SEQNO_MAX_documented
      ∧ NET_PING_SEQNO ≠ 254 ∧ NET_NAK_SEQNO ≠ 255
      ∧ Fintype.card (Fin NET_SEQNO_MAX) = 65533
      ∧ Fintype.card (Fin NET_SEQNO_MAX) ≠ 253 := by
  rw [Fintype.card_fin]
  decide

/-! ## Event flags -/

theorem mem_eventFlags (f : Nat) : f ∈ eventFlags ↔ ∃ k, k < 3 ∧ f = 2 ^ k := by
  constructor
  · intro h
    simp only [eventFlags, List.mem_cons, List.mem_singleton, List.not_mem_nil, or_false] at h
    rcases h with h | h | h
    · exact ⟨0, by omega, h⟩
    · exact ⟨1, by omega, h⟩
    · exact ⟨2, by omega, h⟩
  · rintro ⟨k, hk, rfl⟩
    interval_cases k <;> decide

theorem hasFlag_two_pow (t k : Nat) : hasFlag t (2 ^ k) = t.testBit k := by
  unfold hasFlag
  rw [Nat.and_two_pow]
  cases t.testBit k <;> simp

theorem hasFlag_orFlags (S : List Nat) (hS : ∀ x ∈ S, x ∈ eventFlags) (k : Nat) :
    hasFlag (orFlags S) (2 ^ k) = true ↔ 2 ^ k ∈ S := by
  induction S with
  | nil => simp [orFlags, NET_EVENT_TYPE_NONE, hasFlag_two_pow]
  | cons a rest ih =>
    have ih2 := ih (fun x hx => hS x (List.mem_cons_of_mem a hx))
    obtain ⟨j, _, rfl⟩ := (mem_eventFlags a).1 (hS a (List.mem_cons_self a rest))
    rw [hasFlag_two_pow] at ih2 ⊢
    simp only [orFlags, Nat.testBit_or, Nat.testBit_two_pow, Bool.or_eq_true,
      decide_eq_true_eq, List.mem_cons, ih2]
    constructor
    · rintro (h | h)
      · exact Or.inl (by rw [h])
      · exact Or.inr h
    · rintro (h | h)
      · exact Or.inl (Nat.pow_right_injective (le_refl 2) h).symm
      · exact Or.inr h

/-- C8: NET_EVENT_TYPE_NONE is 0; RECEIVE, CONNECT and DISCONNECT are the pairwise distinct
single bits 1, 2 and 4; for every collection S of these flags, the bitwise OR t of S has
(t & f) != 0 exactly for the flags f in S; and CONNECT | RECEIVE differs from CONNECT,
RECEIVE, DISCONNECT and NONE. -/
theorem C8_event_flags_independent (S : List Nat) (f : Nat)
    (hS : ∀ x ∈ S, x ∈ eventFlags) (hf : f ∈ eventFlags) :
    NET_EVENT_TYPE_NONE = 0
      ∧ (NET_EVENT_TYPE_RECEIVE = 2 ^ 0 ∧ NET_EVENT_TYPE_CONNECT = 2 ^ 1
        ∧ NET_EVENT_TYPE_DISCONNECT = 2 ^ 2)
      ∧ (hasFlag (orFlags S) f = true ↔ f ∈ S)
      ∧ ((orFlags S &&& f) ≠ 0 ↔ f ∈ S)
      ∧ (NET_EVENT_TYPE_CONNECT ||| NET_EVENT_TYPE_RECEIVE ≠ NET_EVENT_TYPE_CONNECT
        ∧ NET_EVENT_TYPE_CONNECT ||| NET_EVENT_TYPE_RECEIVE ≠ NET_EVENT_TYPE_RECEIVE
        ∧ NET_EVENT_TYPE_CONNECT ||| NET_EVENT_TYPE_RECEIVE ≠ NET_EVENT_TYPE_DISCONNECT
        ∧ NET_EVENT_TYPE_CONNECT ||| NET_EVENT_TYPE_RECEIVE ≠ NET_EVENT_TYPE_NONE) := by
  obtain ⟨k, _, rfl⟩ := (mem_eventFlags f).1 hf
  have key := hasFlag_orFlags S hS k
  refine ⟨rfl, ⟨rfl, rfl, rfl⟩, key, ?_, by decide⟩
  rw [← key]
  simp [hasFlag]

/-- C8 at S = CONNECT, RECEIVE (first contact carrying data) and f = CONNECT. -/
theorem C8_event_flags_independent_witness :
    (∀ x ∈ [NET_EVENT_TYPE_CONNECT, NET_EVENT_TYPE_RECEIVE], x ∈ eventFlags)
      ∧ NET_EVENT_TYPE_CONNECT ∈ eventFlags
      ∧ (NET_EVENT_TYPE_NONE = 0
        ∧ (NET_EVENT_TYPE_RECEIVE = 2 ^ 0 ∧ NET_EVENT_TYPE_CONNECT = 2 ^ 1
          ∧ NET_EVENT_TYPE_DISCONNECT = 2 ^ 2)
        ∧ (hasFlag (orFlags [NET_EVENT_TYPE_CONNECT, NET_EVENT_TYPE_RECEIVE])
              NET_EVENT_TYPE_CONNECT = true ↔
            NET_EVENT_TYPE_CONNECT ∈ [NET_EVENT_TYPE_CONNECT, NET_EVENT_TYPE_RECEIVE])
        ∧ ((orFlags [NET_EVENT_TYPE_CONNECT, NET_EVENT_TYPE_RECEIVE]
              &&& NET_EVENT_TYPE_CONNECT) ≠ 0 ↔
            NET_EVENT_TYPE_CONNECT ∈ [NET_EVENT_TYPE_CONNECT, NET_EVENT_TYPE_RECEIVE])
        ∧ (NET_EVENT_TYPE_CONNECT ||| NET_EVENT_TYPE_RECEIVE ≠ NET_EVENT_TYPE_CONNECT
          ∧ NET_EVENT_TYPE_CONNECT ||| NET_EVENT_TYPE_RECEIVE ≠ NET_EVENT_TYPE_RECEIVE
          ∧ NET_EVENT_TYPE_CONNECT ||| NET_EVENT_TYPE_RECEIVE ≠ NET_EVENT_TYPE_DISCONNECT
          ∧ NET_EVENT_TYPE_CONNECT ||| NET_EVENT_TYPE_RECEIVE ≠ NET_EVENT_TYPE_NONE)) :=
  ⟨by decide, by decide,
    C8_event_flags_independent [NET_EVENT_TYPE_CONNECT, NET_EVENT_TYPE_RECEIVE]
      NET_EVENT_TYPE_CONNECT (by decide) (by decide)⟩

/-! ## Slots of the per-connection arrays -/

/-- Away from the value 0, the documented indexing seqno - 1 stays inside the arrays: every
value that the send path assigns before the counter wraps has its slot. -/
theorem slotIndex_in_bounds_of_ne_zero (n : Nat) (h : lastSentAfter n ≠ 0) :
    1 ≤ lastSentAfter n ∧ lastSentAfter n ≤ NET_SEQNO_MAX - 1
      ∧ slotIndex (lastSentAfter n) = lastSentAfter n - 1
      ∧ slotInBounds (slotIndex (lastSentAfter n)) = true := by
  have hlt : lastSentAfter n < 65533 := by
    rw [lastSentAfter_eq]
    omega
  have hi : slotIndex (lastSentAfter n) = lastSentAfter n - 1 := by
    unfold slotIndex
    omega
  refine ⟨by omega, by rw [NET_SEQNO_MAX_eq]; omega, hi, ?_⟩
  simp only [slotInBounds, decide_eq_true_eq, hi, NET_SEQNO_MAX_eq]
  omega

end Net
